import Mathlib

/-
Verification of the loki compiler front end (lowering engine, expression
algebra and code-generation backends) against its design specification.

The Python sources embedded here are:
  - src/loki/frontend/fparser.py  (class FParser2IR: the lowering engine)
  - src/loki/codegen.py           (FortranCodegen / FExprCodegen)
  - src/loki/backend/maxgen.py    (MaxjCodegen / MaxjCodeMapper)

Support modules that the sources build on (loki.types, loki.expression,
the Scope and symbol-table classes, the base expression stringifier) are
not part of the embedded source tree; where they are needed they are
modelled from the specification and each such definition is marked
accordingly in its doc comment.

Conventions of the embedding:
  - Python exceptions are modelled with Except or Option results.
  - Recursive tree walks whose recursion is not structural in Lean take an
    explicit fuel argument bounding the recursion depth; the Python
    recursion is bounded by the depth of the input tree, so any
    sufficiently large fuel reproduces the Python behaviour.
  - Python float literal values are modelled as rationals (the code only
    ever constructs and compares exactly representable values such as
    0.0 and -1).
-/

namespace Loki

/-- Modelled from the spec: the data-type tag of a symbol
(loki.types.BasicType, DerivedType and ProcedureType are not under src/).
The spec lists the tags LOGICAL, INTEGER, REAL, CHARACTER, DERIVED,
PROCEDURE, DEFERRED; ProcedureType carries a name and an is-function flag
(fparser.py line 428 constructs ProcedureType(var.name, is_function=...)). -/
inductive DType where
  | LOGICAL
  | INTEGER
  | REAL
  | CHARACTER
  | DERIVED (name : String)
  | PROCEDURE (name : String) (is_function : Bool)
  | DEFERRED

/-- The isinstance(dtype, ProcedureType) test used by visit_Part_Ref. -/
def DType.isProcedureType : DType → Bool
  | .PROCEDURE _ _ => true
  | _ => false

/-- Modelled from the spec: the canonical symbolic expression nodes
(loki.expression.symbols is not under src/). The spec lists
Variable/Scalar, Array (with dimensions), Literal (int/float/logical/
string), Sum/Product/Quotient/Power, Comparison, LogicalAnd/Or/Not,
StringConcat, InlineCall; Sum, Product, LogicalAnd, LogicalOr store
flattened operand lists. The constructors are shaped exactly as the
frontend (fparser.py) builds them. -/
inductive SymExpr where
  | scalar (name : String)
  | array (name : String) (dimensions : List SymExpr)
  | intLit (value : Int)
  | floatLit (value : Rat)
  | logicLit (value : Bool)
  | strLit (value : String)
  | sum (children : List SymExpr)
  | product (children : List SymExpr)
  | quotient (numerator denominator : SymExpr)
  | power (base exponent : SymExpr)
  | comparison (left : SymExpr) (operator : String) (right : SymExpr)
  | logicalAnd (children : List SymExpr)
  | logicalOr (children : List SymExpr)
  | logicalNot (child : SymExpr)
  | stringConcat (children : List SymExpr)
  | inlineCall (function : String) (parameters : List SymExpr)

/-- Modelled from the spec: SymbolAttributes, the value record bound to a
name in a scope (loki.types.SymbolAttributes is not under src/). Only the
fields exercised by the embedded sources are carried: the data-type tag,
the optional shape, the imported flag and providing module set by USE
lowering, and the dfevar streaming-value marker read by the Maxeler
backend. -/
structure SymbolAttributes where
  dtype : DType
  shape : Option (List SymExpr) := none
  imported : Bool := false
  module : Option String := none
  dfevar : Bool := false

/-- Python truthiness of the shape field: None and the empty tuple are
falsy, a non-empty tuple is truthy. -/
def shapeTruthy : Option (List SymExpr) → Bool
  | some (_ :: _) => true
  | _ => false

/-- Python str.lower restricted to the embedding: character-wise
lower-casing of a string. -/
def lowercase (s : String) : String := String.mk (s.data.map Char.toLower)

/-- Modelled from the spec: a case-insensitive symbol table is a mapping
from lower-cased names to SymbolAttributes (loki.tools
CaseInsensitiveDict is not under src/). -/
abbrev SymTab := List (String × SymbolAttributes)

/-- Case-insensitive lookup in one table: the stored keys are
lower-cased, the queried name is lower-cased before comparison. -/
def symtabLookup (tbl : SymTab) (name : String) : Option SymbolAttributes :=
  (tbl.find? (fun p => p.1 == lowercase name)).map (fun p => p.2)

/-- Case-insensitive insert-or-overwrite in one table (dict assignment). -/
def symtabDefine (tbl : SymTab) (name : String) (attrs : SymbolAttributes) : SymTab :=
  match tbl with
  | [] => [(lowercase name, attrs)]
  | (k, v) :: rest =>
      if k == lowercase name then (k, attrs) :: rest
      else (k, v) :: symtabDefine rest name attrs

/-- Modelled from the spec: a Scope is a local symbol table plus an
optional back-reference to a parent scope; lookup walks the chain
outward, the nearest definition wins, and it never raises (section 4.1 of
the spec; the Scope class is not under src/). -/
inductive Scope where
  | root (symbols : SymTab)
  | child (symbols : SymTab) (parent : Scope)

/-- The local symbol table of a scope. -/
def Scope.symbols : Scope → SymTab
  | .root tbl => tbl
  | .child tbl _ => tbl

/-- Chain-walking, case-insensitive lookup (spec section 4.1). -/
def Scope.lookup : Scope → String → Option SymbolAttributes
  | .root tbl, n => symtabLookup tbl n
  | .child tbl p, n =>
      match symtabLookup tbl n with
      | some a => some a
      | none => Scope.lookup p n

/-- Insert-or-overwrite in the local table only (spec section 4.1). -/
def Scope.define : Scope → String → SymbolAttributes → Scope
  | .root tbl, n, a => .root (symtabDefine tbl n a)
  | .child tbl p, n, a => .child (symtabDefine tbl n a) p

/-- FParser2IR.create_operation (fparser.py lines 1717-1762): construct an
expression node from an operator token and its operand list. A result of
none models the Python exceptions (the final RuntimeError for an unknown
operator, and IndexError for missing operands). Binary minus builds
Sum(exprs[0], Product(-1, exprs[1])) and unary minus builds
Product(-1, exprs[0]); the raw Python integer -1 is embedded as an
integer literal node. -/
def create_operation (op : String) (exprs : List SymExpr) : Option SymExpr :=
  if op == "*" then some (.product exprs)
  else if op == "/" then
    match exprs with
    | e0 :: e1 :: _ => some (.quotient e0 e1)
    | _ => none
  else if op == "+" then some (.sum exprs)
  else if op == "-" then
    match exprs with
    | e0 :: e1 :: _ => some (.sum [e0, .product [.intLit (-1), e1]])
    | [e0] => some (.product [.intLit (-1), e0])
    | [] => none
  else if op == "**" then
    match exprs with
    | e0 :: e1 :: _ => some (.power e0 e1)
    | _ => none
  else if lowercase op == ".and." then some (.logicalAnd exprs)
  else if lowercase op == ".or." then some (.logicalOr exprs)
  else if lowercase op == "==" || lowercase op == ".eq." then
    match exprs with
    | e0 :: e1 :: _ => some (.comparison e0 "==" e1)
    | _ => none
  else if lowercase op == "/=" || lowercase op == ".ne." then
    match exprs with
    | e0 :: e1 :: _ => some (.comparison e0 "!=" e1)
    | _ => none
  else if lowercase op == ">" || lowercase op == ".gt." then
    match exprs with
    | e0 :: e1 :: _ => some (.comparison e0 ">" e1)
    | _ => none
  else if lowercase op == "<" || lowercase op == ".lt." then
    match exprs with
    | e0 :: e1 :: _ => some (.comparison e0 "<" e1)
    | _ => none
  else if lowercase op == ">=" || lowercase op == ".ge." then
    match exprs with
    | e0 :: e1 :: _ => some (.comparison e0 ">=" e1)
    | _ => none
  else if lowercase op == "<=" || lowercase op == ".le." then
    match exprs with
    | e0 :: e1 :: _ => some (.comparison e0 "<=" e1)
    | _ => none
  else if lowercase op == ".not." then
    match exprs with
    | e0 :: _ => some (.logicalNot e0)
    | [] => none
  else if lowercase op == ".eqv." then
    some (.logicalOr [.logicalAnd exprs, .logicalNot (.logicalOr exprs)])
  else if lowercase op == ".neqv." then
    some (.logicalAnd [.logicalNot (.logicalAnd exprs), .logicalOr exprs])
  else if op == "//" then some (.stringConcat exprs)
  else none

/-- FParser2IR.visit_Part_Ref (fparser.py lines 290-313): a part-ref
name(args) is lowered by first attaching the subscripts as dimensions of
the named variable, then consulting the active scope chain: a
PROCEDURE-typed symbol turns the node into an InlineCall whose function
symbol carries no dimensions and whose positional parameters are the
subscripts; any other lookup outcome keeps the subscripted variable. -/
def visit_Part_Ref (scope : Scope) (partName : String) (dimensions : List SymExpr) : SymExpr :=
  let name := match dimensions with
    | [] => SymExpr.scalar partName
    | _ :: _ => SymExpr.array partName dimensions
  match scope.lookup partName with
  | some t =>
      if t.dtype.isProcedureType then SymExpr.inlineCall partName dimensions
      else name
  | none => name

/-- Modelled from the spec: the lowered IR node kinds needed by the
embedded construct visitors (loki.ir is not under src/). Conditional
carries the fields with which fparser.py constructs it (condition, body,
else-body, inline flag, has-elseif flag); Associate, Interface and
MultiConditional likewise mirror their construction sites. -/
inductive IRNode where
  | conditional (condition : SymExpr) (body : List IRNode) (else_body : List IRNode)
      (inline : Bool) (has_elseif : Bool)
  | associate (associations : List (SymExpr × String)) (body : List IRNode)
  | interfaceBlock (spec : Option String) (body : List IRNode)
  | multiConditional (expr : SymExpr) (values : List (Option SymExpr))
      (bodies : List (List IRNode)) (else_body : Option (List IRNode))
  | assignment (lhs rhs : SymExpr)
  | comment (text : String)
  | intrinsic (text : String)

/-- Python list slicing l[a:b]. -/
def slice (l : List α) (a b : Nat) : List α := (l.take b).drop a

/-- The get_child plus children.index idiom used by the construct
visitors (fparser.py, e.g. lines 1145-1148): locate the first child
satisfying a kind predicate together with its position in the sibling
list. -/
def findMarker (p : α → Bool) (children : List α) : Option (Nat × α) :=
  children.enum.find? (fun x => p x.2)

/-- The right-to-left nested-Conditional construction of
FParser2IR.visit_If_Construct (fparser.py lines 1175-1180): the last
branch becomes a Conditional holding the else-body with has_elseif false,
and every earlier branch wraps the next Conditional as its single
else-body node with has_elseif true. A none result models the empty
branch list, which the Python code never reaches. -/
def buildConditional : List SymExpr → List (List IRNode) → List IRNode → Option IRNode
  | [c], [b], eb => some (.conditional c b eb false false)
  | c :: cs@(_ :: _), b :: bs@(_ :: _), eb =>
      (buildConditional cs bs eb).map (fun node => .conditional c b [node] false true)
  | _, _, _ => none

/-- Flattening of a nested Conditional chain: follow the single else-body
Conditional while has_elseif is set, collecting (condition, body) pairs
in order, and return the final else-body. -/
def flattenConditional : IRNode → List (SymExpr × List IRNode) × List IRNode
  | .conditional c b eb _ true =>
      match eb with
      | [n] =>
          let r := flattenConditional n
          ((c, b) :: r.1, r.2)
      | _ => ([(c, b)], eb)
  | .conditional c b eb _ false => ([(c, b)], eb)
  | n => ([], [n])

/-- The sibling kinds inside an fparser If_Construct node: the markers
If_Then_Stmt, Else_If_Stmt, Else_Stmt, End_If_Stmt (each statement marker
already carrying its visited condition) and ordinary statements carrying
their lowered IR node. -/
inductive IfChild where
  | ifThenStmt (condition : SymExpr)
  | elseIfStmt (condition : SymExpr)
  | elseStmt
  | endIfStmt
  | stmt (node : IRNode)

def IfChild.isIfThenStmt : IfChild → Bool
  | .ifThenStmt _ => true
  | _ => false

def IfChild.isElseStmt : IfChild → Bool
  | .elseStmt => true
  | _ => false

def IfChild.isEndIfStmt : IfChild → Bool
  | .endIfStmt => true
  | _ => false

/-- Visiting a non-marker sibling returns its lowered node; markers never
appear in the visited slices of a well-formed construct. -/
def IfChild.visit : IfChild → IRNode
  | .stmt n => n
  | _ => IRNode.comment ""

/-- FParser2IR.visit_If_Construct (fparser.py lines 1129-1189): locate
the If_Then_Stmt and End_If_Stmt markers, lower everything before the
construct, split the siblings into branch segments at each Else_If_Stmt
and at the Else_Stmt, build the nested Conditional right-to-left, and
assert that nothing follows the END IF marker. -/
def visit_If_Construct (children : List IfChild) : Except String (List IRNode) :=
  match findMarker IfChild.isIfThenStmt children, findMarker IfChild.isEndIfStmt children with
  | some (ifThenIdx, IfChild.ifThenStmt cond0), some (endIfIdx, _) =>
      let pre := (children.take ifThenIdx).map IfChild.visit
      let elseIfs := children.enum.filterMap (fun x =>
        match x.2 with
        | IfChild.elseIfStmt c => some (x.1, c)
        | _ => none)
      let elseIfIdx := elseIfs.map Prod.fst
      let elseStmtIdx :=
        match findMarker IfChild.isElseStmt children with
        | some (i, _) => i
        | none => endIfIdx
      let conditions := cond0 :: elseIfs.map Prod.snd
      let bodies := List.zipWith (fun s t => (slice children (s + 1) t).map IfChild.visit)
        (ifThenIdx :: elseIfIdx) (elseIfIdx ++ [elseStmtIdx])
      let elseBody := (slice children (elseStmtIdx + 1) endIfIdx).map IfChild.visit
      match buildConditional conditions bodies elseBody with
      | some node =>
          match children.drop (endIfIdx + 1) with
          | [] => .ok (pre ++ [node])
          | _ :: _ => .error "AssertionError: siblings past END IF"
      | none => .error "If_Construct: malformed"
  | _, _ => .error "If_Construct: missing construct markers"

/-- The sibling kinds inside an fparser Associate_Construct node: the
Associate_Stmt marker carrying its visited association list of
(selector expression, associate name) pairs, the End_Associate_Stmt
marker, and ordinary statements. -/
inductive AssocChild where
  | assocStmt (associations : List (SymExpr × String))
  | endAssocStmt
  | stmt (node : IRNode)

def AssocChild.isAssocStmt : AssocChild → Bool
  | .assocStmt _ => true
  | _ => false

def AssocChild.isEndAssocStmt : AssocChild → Bool
  | .endAssocStmt => true
  | _ => false

def AssocChild.visit : AssocChild → IRNode
  | .stmt n => n
  | _ => IRNode.comment ""

/-- FParser2IR.visit_Associate_Construct (fparser.py lines 881-951),
restricted to its structural behaviour: locate the Associate_Stmt and
End_Associate_Stmt markers, lower the siblings before the construct,
lower the body between the markers, and assert that nothing follows the
END ASSOCIATE marker. The symbol-table updates for the associate names
(lines 907-942) do not affect the structural result and are elided. -/
def visit_Associate_Construct (children : List AssocChild) : Except String (List IRNode) :=
  match findMarker AssocChild.isAssocStmt children,
      findMarker AssocChild.isEndAssocStmt children with
  | some (assocIdx, AssocChild.assocStmt assocs), some (endIdx, _) =>
      let pre := (children.take assocIdx).map AssocChild.visit
      let body := (slice children (assocIdx + 1) endIdx).map AssocChild.visit
      match children.drop (endIdx + 1) with
      | [] => .ok (pre ++ [IRNode.associate assocs body])
      | _ :: _ => .error "AssertionError: siblings past END ASSOCIATE"
  | _, _ => .error "Associate_Construct: missing construct markers"

/-- The sibling kinds inside an fparser Interface_Block node. -/
inductive IntfChild where
  | interfaceStmt (spec : Option String)
  | endInterfaceStmt
  | stmt (node : IRNode)

def IntfChild.isInterfaceStmt : IntfChild → Bool
  | .interfaceStmt _ => true
  | _ => false

def IntfChild.isEndInterfaceStmt : IntfChild → Bool
  | .endInterfaceStmt => true
  | _ => false

def IntfChild.visit : IntfChild → IRNode
  | .stmt n => n
  | _ => IRNode.comment ""

/-- FParser2IR.visit_Interface_Block (fparser.py lines 985-1022): locate
the Interface_Stmt and End_Interface_Stmt markers, lower the siblings
before the construct, take the visited interface spec, lower the body
between the markers, and assert that nothing follows the END INTERFACE
marker. -/
def visit_Interface_Block (children : List IntfChild) : Except String (List IRNode) :=
  match findMarker IntfChild.isInterfaceStmt children,
      findMarker IntfChild.isEndInterfaceStmt children with
  | some (intfIdx, IntfChild.interfaceStmt spec), some (endIdx, _) =>
      let pre := (children.take intfIdx).map IntfChild.visit
      let body := (slice children (intfIdx + 1) endIdx).map IntfChild.visit
      match children.drop (endIdx + 1) with
      | [] => .ok (pre ++ [IRNode.interfaceBlock spec body])
      | _ :: _ => .error "AssertionError: siblings past END INTERFACE"
  | _, _ => .error "Interface_Block: missing construct markers"

/-- The sibling kinds inside an fparser Case_Construct node; a Case_Stmt
carries its visited selector, where none encodes the DEFAULT selector. -/
inductive CaseChild where
  | selectCaseStmt (expr : SymExpr)
  | caseStmt (value : Option SymExpr)
  | endSelectStmt
  | stmt (node : IRNode)

def CaseChild.isSelectCaseStmt : CaseChild → Bool
  | .selectCaseStmt _ => true
  | _ => false

def CaseChild.isEndSelectStmt : CaseChild → Bool
  | .endSelectStmt => true
  | _ => false

def CaseChild.visit : CaseChild → IRNode
  | .stmt n => n
  | _ => IRNode.comment ""

/-- FParser2IR.visit_Case_Construct (fparser.py lines 1219-1273): locate
the Select_Case_Stmt and End_Select_Stmt markers, lower the preceding
siblings, enumerate all Case_Stmt markers (failing like the Python
tuple-unpacking ValueError when there are none, and like the assertion
when the first does not directly follow the SELECT CASE statement),
split the bodies at the Case_Stmt positions, extract a DEFAULT branch as
the else-body, and assert that nothing follows the END SELECT marker. -/
def visit_Case_Construct (children : List CaseChild) : Except String (List IRNode) :=
  match findMarker CaseChild.isSelectCaseStmt children,
      findMarker CaseChild.isEndSelectStmt children with
  | some (selIdx, CaseChild.selectCaseStmt expr), some (endIdx, _) =>
      let pre := (children.take selIdx).map CaseChild.visit
      let caseStmts := children.enum.filterMap (fun x =>
        match x.2 with
        | CaseChild.caseStmt v => some (x.1, v)
        | _ => none)
      match caseStmts with
      | [] => .error "ValueError: no case statements"
      | (i0, v0) :: restCases =>
          if i0 = selIdx + 1 then
            let caseIdx := i0 :: restCases.map Prod.fst
            let values := v0 :: restCases.map Prod.snd
            let bodies := List.zipWith
              (fun s t => (slice children (s + 1) t).map CaseChild.visit)
              caseIdx (restCases.map Prod.fst ++ [endIdx])
            let nodeResult : Except String IRNode :=
              match values.findIdx? (fun v => v.isNone) with
              | some di =>
                  match bodies[di]? with
                  | some eb =>
                      Except.ok (IRNode.multiConditional expr (values.eraseIdx di)
                        (bodies.eraseIdx di) (some eb))
                  | none => Except.error "IndexError: default body"
              | none =>
                  Except.ok (IRNode.multiConditional expr values bodies none)
            match nodeResult with
            | Except.error e => Except.error e
            | Except.ok node =>
                match children.drop (endIdx + 1) with
                | [] => .ok (pre ++ [node])
                | _ :: _ => .error "AssertionError: siblings past END SELECT"
          else .error "AssertionError: case statement position"
  | _, _ => .error "Case_Construct: missing construct markers"

/-- The shape asserted by the claim for the nested chain: the innermost
Conditional holds the last condition and body together with the original
else-body and has_elseif false; every enclosing Conditional holds its
condition and body with the next Conditional as its single else-body node
and has_elseif true. -/
def isElseifChain : List SymExpr → List (List IRNode) → List IRNode → IRNode → Prop
  | [c], [b], eb, node => node = IRNode.conditional c b eb false false
  | c :: cs@(_ :: _), b :: bs@(_ :: _), eb, node =>
      ∃ inner, node = IRNode.conditional c b [inner] false true ∧ isElseifChain cs bs eb inner
  | _, _, _, _ => False


/-- The frontend configuration switch read by warn_or_fail
(config with key frontend-strict-mode). -/
structure Config where
  frontend_strict_mode : Bool

/-- FParser2IR.warn_or_fail (fparser.py lines 200-205): in strict mode
log an error and raise NotImplementedError (modelled as Except.error); in
lenient mode log a warning and continue (the returned list carries the
logged warning). -/
def warn_or_fail (cfg : Config) (msg : String) : Except String (List String) :=
  if cfg.frontend_strict_mode then Except.error msg
  else Except.ok [msg]

/-- A parse-tree node as seen by the generic dispatch: either a node kind
with a specific handler (carrying the IR node that handler produces), or
a node kind without one, carrying its kind name, its original source text
and its non-None children. -/
inductive FNode where
  | handledNode (result : IRNode)
  | unhandledNode (kind : String) (text : String) (items : List FNode)

/-- The value lattice of the recursive visit: a single lowered node, a
tuple of child results, or Python None (produced for childless unhandled
nodes). -/
inductive LowerVal where
  | node (n : IRNode)
  | tup (vs : List LowerVal)
  | noneVal

/-- The flattening applied by visit_Base to the visited children
(fparser.py lines 1537-1540): a single child result is returned directly,
an empty tuple becomes None, anything else stays a tuple. -/
def flattenChildren : List LowerVal → LowerVal
  | [v] => v
  | [] => LowerVal.noneVal
  | vs => LowerVal.tup vs

mutual

/-- The generic dispatch combined with FParser2IR.visit_Base (fparser.py
lines 1532-1540): a node kind with a specific handler produces its IR
node; an unhandled kind first calls warn_or_fail (failing the whole
lowering in strict mode), then visits the children and returns their
flattened tuple. Results pair the list of logged warnings with the
produced value. -/
def fvisit (cfg : Config) : FNode → Except String (List String × LowerVal)
  | .handledNode r => .ok ([], .node r)
  | .unhandledNode kind _text items =>
      match warn_or_fail cfg ("No specific handler for node type " ++ kind) with
      | .error e => .error e
      | .ok ws =>
          match fvisitList cfg items with
          | .error e => .error e
          | .ok (ws2, children) => .ok (ws ++ ws2, flattenChildren children)

/-- Visit a list of children, accumulating warnings in order. -/
def fvisitList (cfg : Config) : List FNode → Except String (List String × List LowerVal)
  | [] => .ok ([], [])
  | c :: cs =>
      match fvisit cfg c with
      | .error e => .error e
      | .ok (ws, v) =>
          match fvisitList cfg cs with
          | .error e => .error e
          | .ok (ws2, vs) => .ok (ws ++ ws2, v :: vs)

end


/-- A previously lowered module as found in the definitions table handed
to the frontend: a name and its exported symbol table. -/
structure ModuleDef where
  name : String
  symbols : SymTab

/-- The CaseInsensitiveDict definitions lookup of FParser2IR
(fparser.py line 197 and line 352). -/
def lookupDef (definitions : List ModuleDef) (name : String) : Option ModuleDef :=
  definitions.find? (fun m => lowercase m.name == lowercase name)

/-- The three shapes of the USE statement tail (fparser.py lines
354-373): no list at all (import everything), an ONLY list, or a rename
list. -/
inductive UseForm where
  | importAll
  | only (names : List String)
  | rename

/-- The Import IR node produced by visit_Use_Stmt: module name plus
the imported symbol names (none for a whole-module import). -/
structure ImportNode where
  module : String
  symbols : Option (List String)

/-- The clone(imported=True, module=module) applied to copied symbols. -/
def importClone (a : SymbolAttributes) (moduleName : String) : SymbolAttributes :=
  { a with imported := true, module := some moduleName }

/-- The DEFERRED binding used for names imported from an unavailable
module: SymbolAttributes(BasicType.DEFERRED, imported=True). -/
def deferredImported : SymbolAttributes :=
  { dtype := DType.DEFERRED, imported := true }

/-- The per-name copy loop of the ONLY branch with an available module
(fparser.py lines 366-367): indexing module.symbols with a missing name
raises KeyError. -/
def copyOnly (m : ModuleDef) : Scope → List String → Except String Scope
  | sc, [] => .ok sc
  | sc, s :: rest =>
      match symtabLookup m.symbols s with
      | some attrs => copyOnly m (sc.define s (importClone attrs m.name)) rest
      | none => .error ("KeyError: " ++ s)

/-- FParser2IR.visit_Use_Stmt (fparser.py lines 335-375): a
whole-module import copies every symbol exported by the module in the
definitions table into the local scope (tagged imported); a selective
ONLY import copies only the listed names, or binds them DEFERRED-typed
when the module is unavailable; module-nature prefixes and rename lists
hit warn_or_fail (and the rename branch then fails on the unassigned
local variable named symbols, an UnboundLocalError). The result carries
the logged warnings, the updated scope and the Import node. -/
def visit_Use_Stmt (cfg : Config) (definitions : List ModuleDef) (scope : Scope)
    (moduleNature : Option String) (moduleName : String) (form : UseForm) :
    Except String (List String × Scope × ImportNode) :=
  match (match moduleNature with
         | some _ => warn_or_fail cfg "module-nature not implemented for USE statements"
         | none => Except.ok []) with
  | .error e => .error e
  | .ok natWarnings =>
      let module := lookupDef definitions moduleName
      match form with
      | .importAll =>
          let scope2 := match module with
            | some m => m.symbols.foldl (fun sc kv => sc.define kv.1 (importClone kv.2 m.name)) scope
            | none => scope
          .ok (natWarnings, scope2, ⟨moduleName, none⟩)
      | .only syms =>
          match module with
          | none =>
              let scope2 := syms.foldl (fun sc s => sc.define s deferredImported) scope
              .ok (natWarnings, scope2, ⟨moduleName, some syms⟩)
          | some m =>
              match copyOnly m scope syms with
              | .error e => .error e
              | .ok scope2 => .ok (natWarnings, scope2, ⟨moduleName, some syms⟩)
      | .rename =>
          match warn_or_fail cfg "rename lists not implemented for USE statements" with
          | .error e => .error e
          | .ok _ => .error "UnboundLocalError: local variable symbols referenced before assignment"


/-- pymbolic stringifier precedence levels referenced by the embedded
mappers (only their relative order matters). -/
def PREC_NONE : Nat := 0

def PREC_SUM : Nat := 11

def PREC_PRODUCT : Nat := 12

/-- pymbolic parenthesize_if_needed: wrap in parentheses when the
enclosing precedence exceeds the precedence of the rendered node. -/
def parenthesize_if_needed (s : String) (enclosing inner : Nat) : String :=
  if enclosing > inner then "(" ++ s ++ ")" else s

/-- The zero test of MaxjCodeMapper.map_sum (maxgen.py line 107):
ch in [FloatLiteral(0.0), IntLiteral(0)]. -/
def isZeroAddend : SymExpr → Bool
  | .intLit v => v == 0
  | .floatLit v => v == 0
  | _ => false

/-- The leading-factor test of get_neg_product (maxgen.py line 99):
is_zero(expr.children[0] + 1), evaluated on the literal leading factor
of a Product. -/
def leadingMinusOne : SymExpr → Bool
  | .intLit v => v + 1 == 0
  | .floatLit v => v + 1 == 0
  | _ => false

mutual

/-- MaxjCodeMapper (maxgen.py): the per-expression stringifier of the
Maxeler backend, restricted to the node kinds the verified claims
exercise. map_scalar renders the plain name (no pointer, no parent);
literals render their value; map_sum (lines 90-123) skips operands equal
to the zero literals, detects negated Products through get_neg_product
(a Product whose leading factor is -1 renders as its remaining factors)
and joins the terms with minus or plus signs, failing with an IndexError
on terms[0] when every operand was skipped; map_product is the base
stringifier join with the multiplication sign. The first argument is the
recursion budget; kinds the claims never render report unembedded. -/
def maxjMap : Nat → SymExpr → Nat → Except String String
  | 0, _, _ => .error "RecursionBudget"
  | fuel + 1, e, prec =>
    match e with
    | .scalar n => .ok n
    | .intLit v => .ok (toString v)
    | .floatLit v => .ok (toString v)
    | .logicLit b => .ok (if b then "true" else "false")
    | .sum children =>
        match maxjSumTerms fuel children with
        | .error err => .error err
        | .ok terms =>
            match terms with
            | [] => .error "IndexError: list index out of range"
            | (n0, t0) :: rest =>
                .ok (parenthesize_if_needed
                  (((if n0 then "-" else "") ++ t0) ++
                    String.join (rest.map (fun p => (if p.1 then " - " else " + ") ++ p.2)))
                  prec PREC_SUM)
    | .product children =>
        match maxjMapList fuel children PREC_PRODUCT with
        | .error err => .error err
        | .ok parts =>
            .ok (parenthesize_if_needed (String.intercalate "*" parts) prec PREC_PRODUCT)
    | _ => .error "expression kind not embedded"

/-- The term loop of MaxjCodeMapper.map_sum: for each operand, skip the
zero literals, then either strip a leading -1 factor (marking the term
negative) or render the operand at sum precedence. A Product with a
leading -1 and exactly one other factor renders that factor; with more
factors the remaining product is rendered at product precedence. -/
def maxjSumTerms : Nat → List SymExpr → Except String (List (Bool × String))
  | 0, _ => .error "RecursionBudget"
  | _ + 1, [] => .ok []
  | fuel + 1, ch :: rest =>
      if isZeroAddend ch then maxjSumTerms fuel rest
      else
        match ch with
        | .product (c :: cs) =>
            if leadingMinusOne c then
              match (match cs with
                     | [r] => maxjMap fuel r PREC_PRODUCT
                     | _ => maxjMap fuel (.product cs) PREC_PRODUCT) with
              | .error err => .error err
              | .ok t =>
                  match maxjSumTerms fuel rest with
                  | .error err => .error err
                  | .ok ts => .ok ((true, t) :: ts)
            else
              match maxjMap fuel (.product (c :: cs)) PREC_SUM with
              | .error err => .error err
              | .ok t =>
                  match maxjSumTerms fuel rest with
                  | .error err => .error err
                  | .ok ts => .ok ((false, t) :: ts)
        | other =>
            match maxjMap fuel other PREC_SUM with
            | .error err => .error err
            | .ok t =>
                match maxjSumTerms fuel rest with
                | .error err => .error err
                | .ok ts => .ok ((false, t) :: ts)

/-- Render an operand list at one precedence (the join_rec helper). -/
def maxjMapList : Nat → List SymExpr → Nat → Except String (List String)
  | 0, _, _ => .error "RecursionBudget"
  | _ + 1, [], _ => .ok []
  | fuel + 1, e :: es, prec =>
      match maxjMap fuel e prec with
      | .error err => .error err
      | .ok t =>
          match maxjMapList fuel es prec with
          | .error err => .error err
          | .ok ts => .ok (t :: ts)

end

mutual

/-- Modelled from the spec: the passthrough (source-faithful Fortran)
expression stringifier (LokiStringifyMapper, not under src/); spec
sections 3 and 4.3 require every printer to detect a Product whose
leading factor is -1 and invert it to subtraction syntax. The structure
follows MaxjCodeMapper.map_sum (maxgen.py, under src/) minus its
Maxeler-specific zero skipping; kinds the claims never render report
unembedded. -/
def fortranStringify : Nat → SymExpr → Nat → Except String String
  | 0, _, _ => .error "RecursionBudget"
  | fuel + 1, e, prec =>
    match e with
    | .scalar n => .ok n
    | .intLit v => .ok (toString v)
    | .floatLit v => .ok (toString v)
    | .logicLit b => .ok (if b then ".true." else ".false.")
    | .sum children =>
        match fortranSumTerms fuel children with
        | .error err => .error err
        | .ok terms =>
            match terms with
            | [] => .error "IndexError: list index out of range"
            | (n0, t0) :: rest =>
                .ok (parenthesize_if_needed
                  (((if n0 then "-" else "") ++ t0) ++
                    String.join (rest.map (fun p => (if p.1 then " - " else " + ") ++ p.2)))
                  prec PREC_SUM)
    | .product children =>
        match fortranMapList fuel children PREC_PRODUCT with
        | .error err => .error err
        | .ok parts =>
            .ok (parenthesize_if_needed (String.intercalate "*" parts) prec PREC_PRODUCT)
    | _ => .error "expression kind not embedded"

/-- Modelled from the spec: the sum-term loop of the passthrough
stringifier with the -1-detection and without zero skipping. -/
def fortranSumTerms : Nat → List SymExpr → Except String (List (Bool × String))
  | 0, _ => .error "RecursionBudget"
  | _ + 1, [] => .ok []
  | fuel + 1, ch :: rest =>
      match ch with
      | .product (c :: cs) =>
          if leadingMinusOne c then
            match (match cs with
                   | [r] => fortranStringify fuel r PREC_PRODUCT
                   | _ => fortranStringify fuel (.product cs) PREC_PRODUCT) with
            | .error err => .error err
            | .ok t =>
                match fortranSumTerms fuel rest with
                | .error err => .error err
                | .ok ts => .ok ((true, t) :: ts)
          else
            match fortranStringify fuel (.product (c :: cs)) PREC_SUM with
            | .error err => .error err
            | .ok t =>
                match fortranSumTerms fuel rest with
                | .error err => .error err
                | .ok ts => .ok ((false, t) :: ts)
      | other =>
          match fortranStringify fuel other PREC_SUM with
          | .error err => .error err
          | .ok t =>
              match fortranSumTerms fuel rest with
              | .error err => .error err
              | .ok ts => .ok ((false, t) :: ts)

/-- Modelled from the spec: operand-list rendering of the passthrough
stringifier. -/
def fortranMapList : Nat → List SymExpr → Nat → Except String (List String)
  | 0, _, _ => .error "RecursionBudget"
  | _ + 1, [], _ => .ok []
  | fuel + 1, e :: es, prec =>
      match fortranStringify fuel e prec with
      | .error err => .error err
      | .ok t =>
          match fortranMapList fuel es prec with
          | .error err => .error err
          | .ok ts => .ok (t :: ts)

end

/-- The lowering of the expression string a - b - 1: fparser parses the
subtraction chain left-associatively, and visit_Level_2_Expr lowers each
binary minus through create_operation (fparser.py lines 1782-1788). -/
def lower_a_minus_b_minus_1 : Option SymExpr :=
  (create_operation "-" [SymExpr.scalar "a", SymExpr.scalar "b"]).bind
    (fun inner => create_operation "-" [inner, SymExpr.intLit 1])

/-- The IR statement node consumed by the two backend statement
handlers: a target expression with its type, a value expression, the
pointer-assignment flag and the original source substring. -/
structure MaxjStatement where
  target : SymExpr
  target_type : SymbolAttributes
  expr : SymExpr

/-- MaxjCodegen.visit_Statement (maxgen.py lines 319-333) at depth 0 and
without an inline comment: render target and value through the
MaxjCodeMapper and join them with the streaming-assignment token <== when
the target type is a dfevar with a (non-scalar) shape, and with the plain
token = otherwise. -/
def maxj_visit_Statement (fuel : Nat) (s : MaxjStatement) : Except String String :=
  match maxjMap fuel s.target PREC_NONE with
  | .error err => .error err
  | .ok target =>
      match maxjMap fuel s.expr PREC_NONE with
      | .error err => .error err
      | .ok expr =>
          if s.target_type.dfevar && shapeTruthy s.target_type.shape then
            .ok (target ++ " <== " ++ expr ++ ";")
          else
            .ok (target ++ " = " ++ expr ++ ";")

/-- The expression nodes consumed by FExprCodegen (codegen.py): named
variables (dimensions and subvariables elided), literals rendered by
their text, and n-ary operations with operator list and an explicit
parenthesis flag. -/
inductive FExpr where
  | var (name : String)
  | lit (value : String)
  | operation (ops : List String) (operands : List FExpr) (parenthesis : Bool)

/-- The configuration of FExprCodegen (codegen.py lines 268-277) with its
default values. -/
structure FECfg where
  linewidth : Nat := 90
  indent : String := ""
  op_spaces : Bool := false
  parenthesise : Bool := true

/-- FExprCodegen.append (codegen.py lines 279-287): append text to the
line, breaking with a continuation marker when the tracked width would
exceed the line width; the state pairs the line with the width. -/
def fe_append (cfg : FECfg) (st : String × Nat) (txt : String) : String × Nat :=
  if st.2 + txt.length > cfg.linewidth then
    (st.1 ++ "&\n" ++ cfg.indent ++ "& " ++ txt, txt.length)
  else (st.1 ++ txt, st.2 + txt.length)

mutual

/-- The expression visit of FExprCodegen (codegen.py lines 301-357):
variables append their name, literals their text; visit_Operation
special-cases a single unary operator, otherwise renders the first
operand followed by operator/operand pairs (spaces around operators only
when requested), parenthesised when the node demands it or the
parenthesise default is set. A none result models IndexError on an
operand-less operation (and recursion-budget exhaustion). -/
def feVisit : Nat → FECfg → FExpr → (String × Nat) → Option (String × Nat)
  | 0, _, _, _ => none
  | fuel + 1, cfg, e, st =>
    match e with
    | .var n => some (fe_append cfg st n)
    | .lit v => some (fe_append cfg st v)
    | .operation ops operands parens =>
      match ops, operands with
      | [op], [e0] =>
          let st1 := if parens || cfg.parenthesise then fe_append cfg st "(" else st
          let st2 := fe_append cfg st1 op
          (feVisit fuel cfg e0 st2).map
            (fun st3 => if parens || cfg.parenthesise then fe_append cfg st3 ")" else st3)
      | _, _ =>
          match operands with
          | [] => none
          | e0 :: rest =>
              let st1 := if parens || cfg.parenthesise then fe_append cfg st "(" else st
              match feVisit fuel cfg e0 st1 with
              | none => none
              | some st2 =>
                  match feVisitOps fuel cfg ops rest st2 with
                  | none => none
                  | some st3 =>
                      some (if parens || cfg.parenthesise then fe_append cfg st3 ")" else st3)

/-- The zip(ops, operands[1:]) loop of visit_Operation. -/
def feVisitOps : Nat → FECfg → List String → List FExpr → (String × Nat) → Option (String × Nat)
  | 0, _, _, _, _ => none
  | _ + 1, _, [], _, st => some st
  | _ + 1, _, _, [], st => some st
  | fuel + 1, cfg, op :: ops, e :: es, st =>
      let st1 := fe_append cfg st (if cfg.op_spaces then " " ++ op ++ " " else op)
      match feVisit fuel cfg e st1 with
      | none => none
      | some st2 => feVisitOps fuel cfg ops es st2

end

/-- The old-IR assignment statement consumed by the codegen backends:
target and value expressions, the pointer-assignment flag, and the
original source substring carried by the node. -/
structure FStatement where
  target : FExpr
  expr : FExpr
  ptr : Bool := false
  source : Option String := none

/-- FExprCodegen.visit_Statement (codegen.py lines 327-331): target, the
pointer token => or the plain assignment token =, then the value. -/
def fe_visit_Statement (fuel : Nat) (cfg : FECfg) (s : FStatement) : Option (String × Nat) :=
  match feVisit fuel cfg s.target ("", 0) with
  | none => none
  | some st1 =>
      let st2 := fe_append cfg st1 (if s.ptr then " => " else " = ")
      feVisit fuel cfg s.expr st2

/-- fexprgen applied to a statement with the default flags (codegen.py
lines 375-380), as called by FortranCodegen.visit_Statement at depth 0
without a comment. -/
def fexprgen_Statement (fuel : Nat) (s : FStatement) : Option String :=
  (fe_visit_Statement fuel {} s).map (fun st => st.1)

/-- FortranCodegen.visit (codegen.py lines 34-39) on a statement node:
in conservative mode (the constructor default) the original source
string attached to the node is re-emitted verbatim; otherwise the
statement is rendered through fexprgen. -/
def fortran_visit_Statement (fuel : Nat) (conservative : Bool) (s : FStatement) : Option String :=
  if conservative && s.source.isSome then s.source
  else fexprgen_Statement fuel s

/-- The single IR assignment x = x + 1 as the Maxeler backend sees it,
with the target type marked by the given dfevar flag and shape. -/
def xAssignMaxj (dfevar : Bool) (shape : Option (List SymExpr)) : MaxjStatement :=
  { target := SymExpr.scalar "x",
    target_type := { dtype := DType.INTEGER, shape := shape, dfevar := dfevar },
    expr := SymExpr.sum [SymExpr.scalar "x", SymExpr.intLit 1] }

/-- The single IR assignment x = x + 1 as the passthrough backend sees
it, carrying its original source substring. -/
def xAssignFortran : FStatement :=
  { target := FExpr.var "x",
    expr := FExpr.operation ["+"] [FExpr.var "x", FExpr.lit "1"] false,
    source := some "x = x + 1" }

/-- Helper: the nested chain built right-to-left flattens back to the
branch list in original order with the original else-body. -/
theorem buildConditional_flatten :
    ∀ (cs : List SymExpr) (bs : List (List IRNode)) (eb : List IRNode),
      cs.length = bs.length → cs ≠ [] →
      ∃ node, buildConditional cs bs eb = some node ∧
        flattenConditional node = (cs.zip bs, eb) := by
  intro cs
  induction cs with
  | nil => intro bs eb _ h; exact absurd rfl h
  | cons c cs ih =>
    intro bs eb hlen _
    match bs with
    | [] => simp at hlen
    | b :: bs =>
      match cs, bs with
      | [], [] =>
          refine ⟨.conditional c b eb false false, ?_, ?_⟩
          · simp [buildConditional]
          · simp [flattenConditional]
      | c2 :: cs2, [] => simp at hlen
      | [], b2 :: bs2 => simp at hlen
      | c2 :: cs2, b2 :: bs2 =>
          obtain ⟨node, hbuild, hflat⟩ := ih (b2 :: bs2) eb (by simpa using hlen) (by simp)
          refine ⟨.conditional c b [node] false true, ?_, ?_⟩
          · simp [buildConditional, hbuild]
          · simp [flattenConditional, hflat]

/-- Helper: with matching branch counts the construction succeeds. -/
theorem buildConditional_isSome (cs : List SymExpr) (bs : List (List IRNode))
    (eb : List IRNode) (hlen : cs.length = bs.length) (hne : cs ≠ []) :
    ∃ node, buildConditional cs bs eb = some node := by
  obtain ⟨node, hb, _⟩ := buildConditional_flatten cs bs eb hlen hne
  exact ⟨node, hb⟩

/-- C1: for a reference name(args), a scope-chain lookup yielding a
PROCEDURE-typed symbol makes lowering produce an inline-call node with
args as positional parameters and no dimensions on the callee; any other
lookup result (non-procedure type, or unresolved name) makes lowering
produce an array-subscript node of name with args as its dimensions. -/
theorem part_ref_disambiguation (scope : Scope) (name : String) (args : List SymExpr)
    (hargs : args ≠ []) :
    ((∃ t, scope.lookup name = some t ∧ t.dtype.isProcedureType = true) →
        visit_Part_Ref scope name args = SymExpr.inlineCall name args)
    ∧ ((∀ t, scope.lookup name = some t → t.dtype.isProcedureType = false) →
        visit_Part_Ref scope name args = SymExpr.array name args) := by
  constructor
  · rintro ⟨t, hl, hp⟩
    simp only [visit_Part_Ref, hl, hp, if_pos]
  · intro hnp
    match args, hargs with
    | a :: as, _ =>
      simp only [visit_Part_Ref]
      match hl : scope.lookup name with
      | some t => simp [hnp t hl]
      | none => simp

/-- Concrete disambiguation witness: in a scope where foo is registered
as a procedure, foo(1) lowers to a call with one positional argument; in
a scope where foo is registered with a non-procedure (REAL) type, foo(1)
lowers to an array subscript of foo with index 1. -/
theorem part_ref_disambiguation_witness :
    visit_Part_Ref (Scope.root [("foo", { dtype := DType.PROCEDURE "foo" true })])
        "foo" [SymExpr.intLit 1]
      = SymExpr.inlineCall "foo" [SymExpr.intLit 1]
    ∧ visit_Part_Ref (Scope.root [("foo", { dtype := DType.REAL })])
        "foo" [SymExpr.intLit 1]
      = SymExpr.array "foo" [SymExpr.intLit 1] := by
  constructor
  · exact (part_ref_disambiguation
        (Scope.root [("foo", { dtype := DType.PROCEDURE "foo" true })])
        "foo" [SymExpr.intLit 1] (by simp)).1
      ⟨{ dtype := DType.PROCEDURE "foo" true }, by rfl, by rfl⟩
  · refine (part_ref_disambiguation
        (Scope.root [("foo", { dtype := DType.REAL })])
        "foo" [SymExpr.intLit 1] (by simp)).2 ?_
    intro t ht
    have h2 : some { dtype := DType.REAL : SymbolAttributes } = some t :=
      Eq.trans (by rfl) ht
    rw [← Option.some.inj h2]
    rfl

/-- C2: lowering binary subtraction a - b produces Sum(a, Product(-1, b))
and lowering unary minus -x produces Product(-1, x): both are represented
as multiplication by the literal -1 placed as the leading factor of a
Product node, not by any dedicated subtraction or negation node (the
expression grammar contains no such node kind). -/
theorem create_operation_minus_canonicalization (a b x : SymExpr) :
    create_operation "-" [a, b]
        = some (SymExpr.sum [a, SymExpr.product [SymExpr.intLit (-1), b]])
    ∧ create_operation "-" [x]
        = some (SymExpr.product [SymExpr.intLit (-1), x]) := by
  exact ⟨rfl, rfl⟩

/-- C9: lowering .eqv. over operands (a, b) produces
LogicalOr(LogicalAnd(a, b), LogicalNot(LogicalOr(a, b))) and lowering
.neqv. produces LogicalAnd(LogicalNot(LogicalAnd(a, b)),
LogicalOr(a, b)); the expression grammar has no dedicated equivalence
node, so consumers only ever see And/Or/Not combinations. -/
theorem create_operation_equivalence (a b : SymExpr) :
    create_operation ".eqv." [a, b]
        = some (SymExpr.logicalOr [SymExpr.logicalAnd [a, b],
            SymExpr.logicalNot (SymExpr.logicalOr [a, b])])
    ∧ create_operation ".neqv." [a, b]
        = some (SymExpr.logicalAnd [SymExpr.logicalNot (SymExpr.logicalAnd [a, b]),
            SymExpr.logicalOr [a, b]]) := by
  exact ⟨rfl, rfl⟩

/-- Helper: the chain built right-to-left has the shape asserted by the
claim. -/
theorem buildConditional_chainShape :
    ∀ (cs : List SymExpr) (bs : List (List IRNode)) (eb : List IRNode),
      cs.length = bs.length → cs ≠ [] →
      ∀ node, buildConditional cs bs eb = some node → isElseifChain cs bs eb node := by
  intro cs
  induction cs with
  | nil => intro bs eb _ h; exact absurd rfl h
  | cons c cs ih =>
    intro bs eb hlen _
    match bs with
    | [] => simp at hlen
    | b :: bs =>
      match cs, bs with
      | [], [] =>
          intro node hnode
          simp only [buildConditional, Option.some.injEq] at hnode
          simp [isElseifChain, ← hnode]
      | c2 :: cs2, [] => simp at hlen
      | [], b2 :: bs2 => simp at hlen
      | c2 :: cs2, b2 :: bs2 =>
          intro node hnode
          simp only [buildConditional, Option.map_eq_some'] at hnode
          obtain ⟨inner, hinner, hnode⟩ := hnode
          simp only [isElseifChain]
          exact ⟨inner, hnode.symm,
            ih (b2 :: bs2) eb (by simpa using hlen) (by simp) inner hinner⟩

/-- C4: for an IF construct with conditions C1..Cn, bodies B1..Bn and
else-body E, the lowering builds the nested Conditional right-to-left:
the innermost Conditional holds Cn, Bn and E with has_elseif false, each
enclosing Conditional holds Ci, Bi with the next Conditional as its
single else-body node and has_elseif true, and flattening the nesting
reproduces the branches in original order with E as final else-body. -/
theorem if_construct_nested_conditional (cs : List SymExpr) (bs : List (List IRNode))
    (eb : List IRNode) (hlen : cs.length = bs.length) (hne : cs ≠ []) :
    ∃ node, buildConditional cs bs eb = some node ∧ isElseifChain cs bs eb node ∧
      flattenConditional node = (cs.zip bs, eb) := by
  obtain ⟨node, hb, hf⟩ := buildConditional_flatten cs bs eb hlen hne
  exact ⟨node, hb, buildConditional_chainShape cs bs eb hlen hne node hb, hf⟩

/-- Concrete instance of C4 with three branches and an else-body. -/
theorem if_construct_nested_conditional_witness :
    ∃ node,
      buildConditional [SymExpr.scalar "c1", SymExpr.scalar "c2", SymExpr.scalar "c3"]
          [[IRNode.intrinsic "b1"], [IRNode.intrinsic "b2"], [IRNode.intrinsic "b3"]]
          [IRNode.intrinsic "e"]
        = some node
      ∧ isElseifChain [SymExpr.scalar "c1", SymExpr.scalar "c2", SymExpr.scalar "c3"]
          [[IRNode.intrinsic "b1"], [IRNode.intrinsic "b2"], [IRNode.intrinsic "b3"]]
          [IRNode.intrinsic "e"] node
      ∧ flattenConditional node =
          ([SymExpr.scalar "c1", SymExpr.scalar "c2", SymExpr.scalar "c3"].zip
            [[IRNode.intrinsic "b1"], [IRNode.intrinsic "b2"], [IRNode.intrinsic "b3"]],
           [IRNode.intrinsic "e"]) :=
  if_construct_nested_conditional _ _ _ (by rfl) (by simp)

/-- Helper: a found index lies within the list (accumulator version). -/
theorem findIdxq_lt_length_aux {α : Type} (p : α → Bool) :
    ∀ (l : List α) (s i : Nat), List.findIdx? p l s = some i → i < s + l.length := by
  intro l
  induction l with
  | nil => intro s i h; simp [List.findIdx?] at h
  | cons a l ih =>
    intro s i h
    simp only [List.findIdx?] at h
    by_cases hp : p a
    · simp only [hp, if_pos] at h
      simp only [Option.some.injEq] at h
      subst h
      simp
    · simp only [hp, if_neg, Bool.false_eq_true, not_false_eq_true] at h
      have := ih (s + 1) i h
      simp only [List.length_cons]
      omega

/-- Helper: a found index lies within the list. -/
theorem findIdxq_lt_length {α : Type} (p : α → Bool) (l : List α) (i : Nat)
    (h : List.findIdx? p l = some i) : i < l.length := by
  have := findIdxq_lt_length_aux p l 0 i h
  omega

/-- Helper: the branch-count shape produced by the If construct visitor
always lets the nested-Conditional construction succeed. -/
theorem buildConditional_zip_isSome (c0 : SymExpr) (rest : List SymExpr)
    (f : Nat → Nat → List IRNode) (i0 : Nat) (idxs : List Nat) (last : Nat)
    (eb : List IRNode) (hlen : rest.length = idxs.length) :
    ∃ node, buildConditional (c0 :: rest) (List.zipWith f (i0 :: idxs) (idxs ++ [last])) eb
      = some node := by
  apply buildConditional_isSome
  · simp [List.length_zipWith, hlen]
  · simp

/-- C6: for each marker-bounded construct lowered from a flat sibling
list (IF construct, ASSOCIATE block, INTERFACE block, CASE construct),
any sibling following the end marker of the construct makes lowering
fail with an assertion failure; lowering never silently continues past a
non-empty remainder. -/
theorem construct_trailing_siblings_fatal :
    (∀ (children : List IfChild) (i : Nat) (cond : SymExpr) (e : Nat)
        (x : IfChild) (xs : List IfChild),
        findMarker IfChild.isIfThenStmt children = some (i, IfChild.ifThenStmt cond) →
        findMarker IfChild.isEndIfStmt children = some (e, IfChild.endIfStmt) →
        children.drop (e + 1) = x :: xs →
        visit_If_Construct children = .error "AssertionError: siblings past END IF")
    ∧ (∀ (children : List AssocChild) (i : Nat) (assocs : List (SymExpr × String)) (e : Nat)
        (x : AssocChild) (xs : List AssocChild),
        findMarker AssocChild.isAssocStmt children = some (i, AssocChild.assocStmt assocs) →
        findMarker AssocChild.isEndAssocStmt children = some (e, AssocChild.endAssocStmt) →
        children.drop (e + 1) = x :: xs →
        visit_Associate_Construct children = .error "AssertionError: siblings past END ASSOCIATE")
    ∧ (∀ (children : List IntfChild) (i : Nat) (spec : Option String) (e : Nat)
        (x : IntfChild) (xs : List IntfChild),
        findMarker IntfChild.isInterfaceStmt children = some (i, IntfChild.interfaceStmt spec) →
        findMarker IntfChild.isEndInterfaceStmt children = some (e, IntfChild.endInterfaceStmt) →
        children.drop (e + 1) = x :: xs →
        visit_Interface_Block children = .error "AssertionError: siblings past END INTERFACE")
    ∧ (∀ (children : List CaseChild) (i : Nat) (expr : SymExpr) (e : Nat)
        (v0 : Option SymExpr) (restCases : List (Nat × Option SymExpr))
        (x : CaseChild) (xs : List CaseChild),
        findMarker CaseChild.isSelectCaseStmt children = some (i, CaseChild.selectCaseStmt expr) →
        findMarker CaseChild.isEndSelectStmt children = some (e, CaseChild.endSelectStmt) →
        children.enum.filterMap (fun c =>
          match c.2 with
          | CaseChild.caseStmt v => some (c.1, v)
          | _ => none) = (i + 1, v0) :: restCases →
        children.drop (e + 1) = x :: xs →
        visit_Case_Construct children = .error "AssertionError: siblings past END SELECT") := by
  refine ⟨?_, ?_, ?_, ?_⟩
  · intro children i cond e x xs h1 h2 h3
    unfold visit_If_Construct
    rw [h1, h2]
    dsimp only
    split
    · rw [h3]
    · next hnone =>
        obtain ⟨nd, hnd⟩ := buildConditional_zip_isSome cond
          ((children.enum.filterMap (fun x =>
            match x.2 with
            | IfChild.elseIfStmt c => some (x.1, c)
            | _ => none)).map Prod.snd)
          (fun s t => (slice children (s + 1) t).map IfChild.visit) i
          ((children.enum.filterMap (fun x =>
            match x.2 with
            | IfChild.elseIfStmt c => some (x.1, c)
            | _ => none)).map Prod.fst)
          (match findMarker IfChild.isElseStmt children with
           | some (j, _) => j
           | none => e)
          ((slice children
            ((match findMarker IfChild.isElseStmt children with
              | some (j, _) => j
              | none => e) + 1) e).map IfChild.visit)
          (by simp)
        rw [hnd] at hnone
        exact Option.noConfusion hnone
  · intro children i assocs e x xs h1 h2 h3
    unfold visit_Associate_Construct
    rw [h1, h2]
    dsimp only
    rw [h3]
  · intro children i spec e x xs h1 h2 h3
    unfold visit_Interface_Block
    rw [h1, h2]
    dsimp only
    rw [h3]
  · intro children i expr e v0 restCases x xs h1 h2 h3 h4
    unfold visit_Case_Construct
    rw [h1, h2, h3]
    dsimp only
    simp only [eq_self_iff_true, if_true]
    rcases hdi : (v0 :: restCases.map Prod.snd).findIdx? (fun v => v.isNone) with _ | di
    · simp only [hdi]
      rw [h4]
    · simp only [hdi]
      have hlt : di < (v0 :: restCases.map Prod.snd).length :=
        findIdxq_lt_length _ _ _ hdi
      have hblen : (List.zipWith
          (fun s t => (slice children (s + 1) t).map CaseChild.visit)
          ((i + 1) :: restCases.map Prod.fst)
          (restCases.map Prod.fst ++ [e])).length
          = (v0 :: restCases.map Prod.snd).length := by
        simp [List.length_zipWith]
      rw [List.getElem?_eq_getElem (by omega)]
      rw [h4]
  
/-- Concrete instances of C6: a single trailing sibling after the end
marker makes each of the four construct visitors fail with the
assertion. -/
theorem construct_trailing_siblings_fatal_witness :
    visit_If_Construct [IfChild.ifThenStmt (SymExpr.scalar "c"),
        IfChild.stmt (IRNode.intrinsic "b"), IfChild.endIfStmt,
        IfChild.stmt (IRNode.intrinsic "t")]
      = .error "AssertionError: siblings past END IF"
    ∧ visit_Associate_Construct [AssocChild.assocStmt [(SymExpr.scalar "a", "v")],
        AssocChild.stmt (IRNode.intrinsic "b"), AssocChild.endAssocStmt,
        AssocChild.stmt (IRNode.intrinsic "t")]
      = .error "AssertionError: siblings past END ASSOCIATE"
    ∧ visit_Interface_Block [IntfChild.interfaceStmt none,
        IntfChild.stmt (IRNode.intrinsic "b"), IntfChild.endInterfaceStmt,
        IntfChild.stmt (IRNode.intrinsic "t")]
      = .error "AssertionError: siblings past END INTERFACE"
    ∧ visit_Case_Construct [CaseChild.selectCaseStmt (SymExpr.scalar "x"),
        CaseChild.caseStmt (some (SymExpr.intLit 1)),
        CaseChild.stmt (IRNode.intrinsic "b"), CaseChild.endSelectStmt,
        CaseChild.stmt (IRNode.intrinsic "t")]
      = .error "AssertionError: siblings past END SELECT" := by
  refine ⟨?_, ?_, ?_, ?_⟩
  · exact construct_trailing_siblings_fatal.1 _ 0 (SymExpr.scalar "c") 2
      (IfChild.stmt (IRNode.intrinsic "t")) [] rfl rfl rfl
  · exact construct_trailing_siblings_fatal.2.1 _ 0 [(SymExpr.scalar "a", "v")] 2
      (AssocChild.stmt (IRNode.intrinsic "t")) [] rfl rfl rfl
  · exact construct_trailing_siblings_fatal.2.2.1 _ 0 none 2
      (IntfChild.stmt (IRNode.intrinsic "t")) [] rfl rfl rfl
  · exact construct_trailing_siblings_fatal.2.2.2 _ 0 (SymExpr.scalar "x") 3
      (some (SymExpr.intLit 1)) []
      (CaseChild.stmt (IRNode.intrinsic "t")) [] rfl rfl rfl rfl

mutual

/-- Helper: in lenient mode the recursive fallback never fails. -/
theorem fvisit_lenient_total :
    ∀ n : FNode, ∃ ws v, fvisit ⟨false⟩ n = .ok (ws, v)
  | .handledNode r => ⟨[], .node r, rfl⟩
  | .unhandledNode kind text items => by
      obtain ⟨ws2, vs, h⟩ := fvisitList_lenient_total items
      refine ⟨("No specific handler for node type " ++ kind) :: ws2, flattenChildren vs, ?_⟩
      unfold fvisit
      simp [warn_or_fail, h]

/-- Helper: in lenient mode visiting a child list never fails. -/
theorem fvisitList_lenient_total :
    ∀ l : List FNode, ∃ ws vs, fvisitList ⟨false⟩ l = .ok (ws, vs)
  | [] => ⟨[], [], rfl⟩
  | c :: cs => by
      obtain ⟨ws, v, h1⟩ := fvisit_lenient_total c
      obtain ⟨ws2, vs, h2⟩ := fvisitList_lenient_total cs
      refine ⟨ws ++ ws2, v :: vs, ?_⟩
      unfold fvisitList
      simp [h1, h2]

end

/-- C5 counterexample: lowering an unhandled node kind in lenient mode
logs the warning and continues, but the produced value is the flattened
tuple of the visited children (here: no children, hence None), not an
opaque passthrough node; in particular the original source text of the
construct appears nowhere in the result. -/
theorem unhandled_fallback_no_passthrough_node :
    fvisit ⟨false⟩ (FNode.unhandledNode "Weird_Node" "original source text" [])
      = .ok (["No specific handler for node type Weird_Node"], LowerVal.noneVal)
    ∧ ¬ ∃ ws n, fvisit ⟨false⟩ (FNode.unhandledNode "Weird_Node" "original source text" [])
        = .ok (ws, LowerVal.node n) := by
  constructor
  · rfl
  · rintro ⟨ws, n, h⟩
    injection h with h1
    injection h1 with hw hv
    exact LowerVal.noConfusion hv

/-- C5 (amended): for a node kind without a specific handler, strict mode
fails the whole lowering with an error; lenient mode logs a warning and
continues, substituting the flattened tuple of the recursively visited
children (a single child result, or nothing when there are no children)
rather than an opaque passthrough node carrying the source text. -/
theorem unhandled_fallback_strict_or_warn :
    (∀ (kind text : String) (items : List FNode),
        fvisit ⟨true⟩ (FNode.unhandledNode kind text items)
          = .error ("No specific handler for node type " ++ kind))
    ∧ (∀ (kind text : String) (items : List FNode),
        ∃ ws vs, fvisitList ⟨false⟩ items = .ok (ws, vs) ∧
          fvisit ⟨false⟩ (FNode.unhandledNode kind text items)
            = .ok (("No specific handler for node type " ++ kind) :: ws,
                flattenChildren vs)) := by
  constructor
  · intro kind text items
    unfold fvisit
    simp [warn_or_fail]
  · intro kind text items
    obtain ⟨ws, vs, h⟩ := fvisitList_lenient_total items
    refine ⟨ws, vs, h, ?_⟩
    unfold fvisit
    simp [warn_or_fail, h]

/-- Helper: defining a name makes its case-insensitive lookup return the
new attributes. -/
theorem symtabLookup_define_self (t : SymTab) (k : String) (a : SymbolAttributes) :
    symtabLookup (symtabDefine t k a) k = some a := by
  induction t with
  | nil => simp [symtabDefine, symtabLookup, List.find?]
  | cons kv rest ih =>
    rcases kv with ⟨k0, v0⟩
    by_cases h : k0 == lowercase k
    · simp [symtabDefine, h, symtabLookup, List.find?]
    · simp only [symtabDefine, h, Bool.false_eq_true, if_neg, not_false_eq_true]
      simpa [symtabLookup, List.find?, h] using ih

/-- Helper: defining one name leaves the lookup of any name with a
different lower-cased spelling unchanged. -/
theorem symtabLookup_define_other (t : SymTab) (k2 : String) (a : SymbolAttributes)
    (k : String) (h : lowercase k2 ≠ lowercase k) :
    symtabLookup (symtabDefine t k2 a) k = symtabLookup t k := by
  induction t with
  | nil =>
    have hb : (lowercase k2 == lowercase k) = false := by
      simpa using h
    simp [symtabDefine, symtabLookup, List.find?, hb]
  | cons kv rest ih =>
    rcases kv with ⟨k0, v0⟩
    by_cases h0 : k0 == lowercase k2
    · have hk : (k0 == lowercase k) = false := by
        have : k0 = lowercase k2 := by simpa using h0
        subst this
        simpa using h
      simp [symtabDefine, h0, symtabLookup, List.find?, hk]
    · simp only [symtabDefine, h0, Bool.false_eq_true, if_neg, not_false_eq_true]
      by_cases hk : k0 == lowercase k
      · simp [symtabLookup, List.find?, hk]
      · simpa [symtabLookup, List.find?, hk] using ih

/-- Helper: Scope.define acts on the local symbol table. -/
theorem scope_define_symbols (sc : Scope) (k : String) (a : SymbolAttributes) :
    (Scope.define sc k a).symbols = symtabDefine sc.symbols k a := by
  cases sc <;> rfl

/-- Helper: a fold of defines leaves untouched every name whose
lower-cased spelling differs from all defined keys. -/
theorem foldl_define_lookup_untouched {α : Type} (keyOf : α → String)
    (fAttr : α → SymbolAttributes) :
    ∀ (l : List α) (sc : Scope) (k : String),
      (∀ x ∈ l, lowercase (keyOf x) ≠ lowercase k) →
      symtabLookup (l.foldl (fun sc x => sc.define (keyOf x) (fAttr x)) sc).symbols k
        = symtabLookup sc.symbols k := by
  intro l
  induction l with
  | nil => intro sc k _; rfl
  | cons x l ih =>
    intro sc k h
    simp only [List.foldl_cons]
    rw [ih _ k (fun y hy => h y (List.mem_cons_of_mem x hy))]
    rw [scope_define_symbols]
    exact symtabLookup_define_other _ _ _ _ (h x (List.mem_cons_self x l))

/-- Helper: after a fold of defines over entries with pairwise distinct
lower-cased keys, the lookup of each entry key returns its value. -/
theorem foldl_define_lookup_mem {α : Type} (keyOf : α → String)
    (fAttr : α → SymbolAttributes) :
    ∀ (l : List α) (sc : Scope) (x : α),
      (l.map (fun y => lowercase (keyOf y))).Nodup → x ∈ l →
      symtabLookup (l.foldl (fun sc x => sc.define (keyOf x) (fAttr x)) sc).symbols (keyOf x)
        = some (fAttr x) := by
  intro l
  induction l with
  | nil => intro sc x _ hx; exact absurd hx (by simp)
  | cons y l ih =>
    intro sc x hnd hx
    simp only [List.map_cons, List.nodup_cons] at hnd
    rcases List.mem_cons.mp hx with hxy | hxl
    · subst hxy
      simp only [List.foldl_cons]
      rw [foldl_define_lookup_untouched keyOf fAttr l _ (keyOf x) ?hne]
      · rw [scope_define_symbols]
        exact symtabLookup_define_self _ _ _
      case hne =>
        intro z hz hkz
        exact hnd.1 (hkz ▸ List.mem_map_of_mem (fun y => lowercase (keyOf y)) hz)
    · simp only [List.foldl_cons]
      exact ih _ x hnd.2 hxl

/-- Helper: when every listed name is exported by the module, the ONLY
copy loop succeeds and equals a fold of defines. -/
theorem copyOnly_ok (m : ModuleDef) :
    ∀ (syms : List String) (sc : Scope),
      (∀ s ∈ syms, (symtabLookup m.symbols s).isSome) →
      copyOnly m sc syms = .ok (syms.foldl
        (fun sc s => sc.define s
          (importClone ((symtabLookup m.symbols s).getD deferredImported) m.name)) sc) := by
  intro syms
  induction syms with
  | nil => intro sc _; rfl
  | cons s rest ih =>
    intro sc h
    obtain ⟨a, ha⟩ := Option.isSome_iff_exists.mp (h s (List.mem_cons_self s rest))
    simp only [copyOnly, ha, List.foldl_cons]
    rw [ih _ (fun y hy => h y (List.mem_cons_of_mem s hy))]
    simp [ha]

/-- C7 counterexample: a selective ONLY import from a module that is
not in the definitions table binds the listed name DEFERRED-typed and
tags it imported, but the lowering issues no warning at all (the warning
list of the result is empty), contrary to the claim that a warning is
issued. -/
theorem use_stmt_missing_module_no_warning :
    visit_Use_Stmt ⟨false⟩ [] (Scope.root []) none "extmod" (UseForm.only ["x"])
      = .ok ([], Scope.root [("x", deferredImported)], ⟨"extmod", some ["x"]⟩)
    ∧ ¬ ∃ (w : String) (ws : List String) (rest : Scope × ImportNode),
        visit_Use_Stmt ⟨false⟩ [] (Scope.root []) none "extmod" (UseForm.only ["x"])
          = .ok (w :: ws, rest) := by
  constructor
  · rfl
  · rintro ⟨w, ws, rest, h⟩
    injection h with h1
    injection h1 with hw hr
    exact List.noConfusion hw

/-- C7 (amended): a whole-module import copies every symbol exported
by the module found in the definitions table into the local scope,
tagged imported; a selective ONLY import copies the listed names; when
the providing module is not in the definitions table, a selective import
binds each listed name DEFERRED-typed and tagged imported in the local
scope, silently (no warning is issued) and without failing the
lowering. -/
theorem use_stmt_import_resolution :
    (∀ (cfg : Config) (defs : List ModuleDef) (scope : Scope) (name : String)
        (m : ModuleDef),
        lookupDef defs name = some m →
        (m.symbols.map (fun kv => lowercase kv.1)).Nodup →
        ∃ scope2, visit_Use_Stmt cfg defs scope none name UseForm.importAll
            = .ok ([], scope2, ⟨name, none⟩)
          ∧ (∀ k v, (k, v) ∈ m.symbols →
              symtabLookup scope2.symbols k = some (importClone v m.name))
          ∧ (∀ k, (∀ kv ∈ m.symbols, lowercase kv.1 ≠ lowercase k) →
              symtabLookup scope2.symbols k = symtabLookup scope.symbols k))
    ∧ (∀ (cfg : Config) (defs : List ModuleDef) (scope : Scope) (name : String)
        (m : ModuleDef) (syms : List String),
        lookupDef defs name = some m →
        (syms.map lowercase).Nodup →
        (∀ s ∈ syms, (symtabLookup m.symbols s).isSome) →
        ∃ scope2, visit_Use_Stmt cfg defs scope none name (UseForm.only syms)
            = .ok ([], scope2, ⟨name, some syms⟩)
          ∧ (∀ s a, s ∈ syms → symtabLookup m.symbols s = some a →
              symtabLookup scope2.symbols s = some (importClone a m.name))
          ∧ (∀ k, (∀ s ∈ syms, lowercase s ≠ lowercase k) →
              symtabLookup scope2.symbols k = symtabLookup scope.symbols k))
    ∧ (∀ (cfg : Config) (defs : List ModuleDef) (scope : Scope) (name : String)
        (syms : List String),
        lookupDef defs name = none →
        (syms.map lowercase).Nodup →
        ∃ scope2, visit_Use_Stmt cfg defs scope none name (UseForm.only syms)
            = .ok ([], scope2, ⟨name, some syms⟩)
          ∧ (∀ s ∈ syms, symtabLookup scope2.symbols s = some deferredImported)
          ∧ (∀ k, (∀ s ∈ syms, lowercase s ≠ lowercase k) →
              symtabLookup scope2.symbols k = symtabLookup scope.symbols k)) := by
  refine ⟨?_, ?_, ?_⟩
  · intro cfg defs scope name m h1 hnd
    refine ⟨m.symbols.foldl (fun sc kv => sc.define kv.1 (importClone kv.2 m.name)) scope,
      ?_, ?_, ?_⟩
    · unfold visit_Use_Stmt
      rw [h1]
    · intro k v hmem
      exact foldl_define_lookup_mem (fun kv => kv.1)
        (fun kv => importClone kv.2 m.name) m.symbols scope (k, v) hnd hmem
    · intro k hk
      exact foldl_define_lookup_untouched (fun kv => kv.1)
        (fun kv => importClone kv.2 m.name) m.symbols scope k hk
  · intro cfg defs scope name m syms h1 hnd hall
    refine ⟨syms.foldl (fun sc s => sc.define s
        (importClone ((symtabLookup m.symbols s).getD deferredImported) m.name)) scope,
      ?_, ?_, ?_⟩
    · unfold visit_Use_Stmt
      rw [h1]
      dsimp only
      rw [copyOnly_ok m syms scope hall]
    · intro s a hs ha
      have h2 := foldl_define_lookup_mem (fun s => s)
        (fun s => importClone ((symtabLookup m.symbols s).getD deferredImported) m.name)
        syms scope s hnd hs
      simpa [ha] using h2
    · intro k hk
      exact foldl_define_lookup_untouched (fun s => s)
        (fun s => importClone ((symtabLookup m.symbols s).getD deferredImported) m.name)
        syms scope k hk
  · intro cfg defs scope name syms h1 hnd
    refine ⟨syms.foldl (fun sc s => sc.define s deferredImported) scope, ?_, ?_, ?_⟩
    · unfold visit_Use_Stmt
      rw [h1]
    · intro s hs
      exact foldl_define_lookup_mem (fun s => s) (fun _ => deferredImported)
        syms scope s hnd hs
    · intro k hk
      exact foldl_define_lookup_untouched (fun s => s) (fun _ => deferredImported)
        syms scope k hk

/-- Concrete instance of the amended C7: a whole-module import copies
the exports, a selective import copies the listed name, and a selective
ONLY list naming an unknown module binds the name DEFERRED, silently. -/
theorem use_stmt_import_resolution_witness :
    (∃ scope2, visit_Use_Stmt ⟨false⟩ [⟨"m", [("a", { dtype := DType.REAL })]⟩]
        (Scope.root []) none "m" UseForm.importAll
        = .ok ([], scope2, ⟨"m", none⟩)
      ∧ symtabLookup scope2.symbols "a"
          = some (importClone { dtype := DType.REAL } "m"))
    ∧ (∃ scope2, visit_Use_Stmt ⟨false⟩ [⟨"m", [("a", { dtype := DType.REAL })]⟩]
        (Scope.root []) none "m" (UseForm.only ["a"])
        = .ok ([], scope2, ⟨"m", some ["a"]⟩)
      ∧ symtabLookup scope2.symbols "a"
          = some (importClone { dtype := DType.REAL } "m"))
    ∧ (∃ scope2, visit_Use_Stmt ⟨false⟩ [] (Scope.root []) none "m" (UseForm.only ["x"])
        = .ok ([], scope2, ⟨"m", some ["x"]⟩)
      ∧ symtabLookup scope2.symbols "x" = some deferredImported) := by
  refine ⟨?_, ?_, ?_⟩
  · obtain ⟨scope2, heq, hmem, _⟩ := use_stmt_import_resolution.1 ⟨false⟩
      [⟨"m", [("a", { dtype := DType.REAL })]⟩] (Scope.root []) "m"
      ⟨"m", [("a", { dtype := DType.REAL })]⟩ rfl (by simp)
    exact ⟨scope2, heq, hmem "a" { dtype := DType.REAL } (by simp)⟩
  · obtain ⟨scope2, heq, hmem, _⟩ := use_stmt_import_resolution.2.1 ⟨false⟩
      [⟨"m", [("a", { dtype := DType.REAL })]⟩] (Scope.root []) "m"
      ⟨"m", [("a", { dtype := DType.REAL })]⟩ ["a"] rfl (by simp) (by
        intro s hs
        simp only [List.mem_singleton] at hs
        subst hs
        rfl)
    exact ⟨scope2, heq, hmem "a" { dtype := DType.REAL } (by simp) rfl⟩
  · obtain ⟨scope2, heq, hmem, _⟩ := use_stmt_import_resolution.2.2 ⟨false⟩
      [] (Scope.root []) "m" ["x"] rfl (by simp)
    exact ⟨scope2, heq, hmem "x" (by simp)⟩

/-- C3: lowering the expression string a - b - 1 (two left-associated
binary subtractions through create_operation) yields the internal
-1-multiplication canonicalization, and the passthrough stringifier
inverts each Product with leading factor -1 back to subtraction syntax,
re-emitting exactly a - b - 1 rather than a rendering of the internal
multiplications. -/
theorem roundtrip_subtraction_chain :
    lower_a_minus_b_minus_1
      = some (SymExpr.sum [SymExpr.sum [SymExpr.scalar "a",
          SymExpr.product [SymExpr.intLit (-1), SymExpr.scalar "b"]],
          SymExpr.product [SymExpr.intLit (-1), SymExpr.intLit 1]])
    ∧ fortranStringify 9 (SymExpr.sum [SymExpr.sum [SymExpr.scalar "a",
          SymExpr.product [SymExpr.intLit (-1), SymExpr.scalar "b"]],
          SymExpr.product [SymExpr.intLit (-1), SymExpr.intLit 1]]) PREC_NONE
      = .ok "a - b - 1" := by
  exact ⟨rfl, rfl⟩

/-- C8: for the one IR assignment x = x + 1, the passthrough backend
(conservative mode, its constructor default) emits the plain assignment
x = x + 1, while the Maxeler backend emits the streaming-assignment
token <== instead of = exactly when the target type is a dfevar with a
non-scalar shape, and the plain token = otherwise. The third conjunct
shows the non-conservative expression path of the passthrough backend,
which likewise joins with the plain = token. -/
theorem backend_assignment_divergence (dfevar : Bool) (shape : Option (List SymExpr)) :
    fortran_visit_Statement 9 true xAssignFortran = some "x = x + 1"
    ∧ maxj_visit_Statement 9 (xAssignMaxj dfevar shape)
        = .ok (if dfevar && shapeTruthy shape then "x <== x + 1;" else "x = x + 1;")
    ∧ fexprgen_Statement 9 xAssignFortran = some "x = (x+1)" := by
  refine ⟨rfl, ?_, rfl⟩
  cases dfevar with
  | false =>
    cases shape with
    | none => rfl
    | some l => cases l <;> rfl
  | true =>
    cases shape with
    | none => rfl
    | some l => cases l <;> rfl

/-- Helper: when every operand of a Sum is a zero literal, the map_sum
term loop skips them all and produces no terms. -/
theorem maxjSumTerms_allZero :
    ∀ (children : List SymExpr) (fuel : Nat),
      (∀ c ∈ children, isZeroAddend c = true) → children.length < fuel →
      maxjSumTerms fuel children = .ok [] := by
  intro children
  induction children with
  | nil =>
    intro fuel _ hf
    match fuel, hf with
    | g + 1, _ => rfl
  | cons c rest ih =>
    intro fuel hz hf
    match fuel, hf with
    | g + 1, hf =>
      have hc : isZeroAddend c = true := hz c (List.mem_cons_self c rest)
      simp only [maxjSumTerms, hc, if_pos]
      exact ih g (fun y hy => hz y (List.mem_cons_of_mem c hy)) (by
        simp only [List.length_cons] at hf
        omega)

/-- C10: the Maxeler map_sum omits every operand equal to the integer
literal 0 or the float literal 0.0, so Sum(x, 0) and Sum(x, 0.0) print
identically to x alone; and when every operand is such a zero literal
(at least one non-zero operand is a precondition), rendering fails with
an IndexError rather than producing the text 0. -/
theorem maxj_sum_zero_literals :
    (∀ (children : List SymExpr) (prec fuel : Nat),
        (∀ c ∈ children, isZeroAddend c = true) → children.length + 1 < fuel →
        maxjMap fuel (SymExpr.sum children) prec
          = .error "IndexError: list index out of range")
    ∧ maxjMap 9 (SymExpr.sum [SymExpr.scalar "x", SymExpr.intLit 0]) PREC_NONE = .ok "x"
    ∧ maxjMap 9 (SymExpr.sum [SymExpr.scalar "x", SymExpr.floatLit 0]) PREC_NONE = .ok "x"
    ∧ maxjMap 9 (SymExpr.scalar "x") PREC_NONE = .ok "x" := by
  refine ⟨?_, rfl, rfl, rfl⟩
  intro children prec fuel hz hf
  match fuel, hf with
  | g + 1, hf =>
    unfold maxjMap
    dsimp only
    rw [maxjSumTerms_allZero children g hz (by omega)]

/-- Concrete instance of C10: a Sum whose operands are the integer
literal 0 and the float literal 0.0 fails with the IndexError. -/
theorem maxj_sum_zero_literals_witness :
    maxjMap 9 (SymExpr.sum [SymExpr.intLit 0, SymExpr.floatLit 0]) PREC_NONE
      = .error "IndexError: list index out of range" := by
  refine maxj_sum_zero_literals.1 [SymExpr.intLit 0, SymExpr.floatLit 0] PREC_NONE 9 ?_ (by decide)
  intro c hc
  simp only [List.mem_cons, List.not_mem_nil, or_false] at hc
  rcases hc with rfl | rfl
  · rfl
  · rfl

end Loki
